import Mathlib

/-!
Verification of the beer-blending LP core (`src/main.py`).

The Python program validates a blending request with pydantic, builds a
linear program with Pyomo (`create_instance`) and maps the external
solver's answer to a `SolverOutput` record (`solve_func`).  Real numbers
are embedded as `ℚ`; the external LP solver is a parameter of
`solve_func`, returning either a result record or an error (an uncaught
Python exception is an `Except.error` that propagates).
-/

namespace BeerBlending

/-- `class Ingredient(BaseModel)`: name, abv, cost. -/
structure Ingredient where
  name : String
  abv : ℚ
  cost : ℚ
  deriving Repr, DecidableEq

/-- `class DesiredProduct(BaseModel)`: volume, abv. -/
structure DesiredProduct where
  volume : ℚ
  abv : ℚ
  deriving Repr, DecidableEq

/-- `class Data(BaseModel)`: desired product plus ingredient options. -/
structure Data where
  desired_product : DesiredProduct
  options : List Ingredient
  deriving Repr, DecidableEq

/-- pydantic field validation of `Ingredient`:
`abv: confloat(ge=0, le=1)`, `cost: NonNegativeFloat`. -/
def validIngredient (i : Ingredient) : Bool :=
  decide (0 ≤ i.abv) && decide (i.abv ≤ 1) && decide (0 ≤ i.cost)

/-- pydantic field validation of `DesiredProduct`:
`volume: PositiveFloat`, `abv: confloat(ge=0, le=1)`. -/
def validDesiredProduct (d : DesiredProduct) : Bool :=
  decide (0 < d.volume) && decide (0 ≤ d.abv) && decide (d.abv ≤ 1)

/-- pydantic validation of `Data`: both nested models validate; there is
no further validator on `Data` itself (in particular no uniqueness check
on ingredient names). -/
def validData (d : Data) : Bool :=
  validDesiredProduct d.desired_product && d.options.all validIngredient

/-- Objective sense (`pyomo.minimize` / `pyomo.maximize`). -/
inductive Sense where
  | minimize
  | maximize
  deriving Repr, DecidableEq

/-- Relation of a constraint (`==`, `<=`, `>=` in a Pyomo expression). -/
inductive Rel where
  | eq
  | le
  | ge
  deriving Repr, DecidableEq

/-- A linear expression, as the list of monomials `coeff * var[key]` in
the order the Python generator expression produces them. -/
abbrev LinExpr := List (String × ℚ)

/-- A linear constraint `lhsTerms rel rhs`. -/
structure LinConstraint where
  terms : LinExpr
  rel : Rel
  rhs : ℚ
  deriving Repr, DecidableEq

/-- The Pyomo `ConcreteModel` built by `create_instance`, reduced to its
mathematical content. -/
structure LPModel where
  varKeys : List String
  objSense : Sense
  objTerms : LinExpr
  volCon : LinConstraint
  abvCon : LinConstraint
  deriving Repr, DecidableEq

/-- One key per distinct name, keeping the first occurrence. -/
def firstDedup : List String → List String
  | [] => []
  | a :: as => a :: (firstDedup as).filter (fun b => b ≠ a)

/-- `add_produced_volume_variable`: `pyomo.Var([o.name for o in data.options],
domain=NonNegativeReals)`.  The variable's key set is the implicit Pyomo
index set over the name list, which keeps one key per distinct name (first
occurrence order). -/
def add_produced_volume_variable (data : Data) : List String :=
  firstDedup (data.options.map (·.name))

/-- `add_objective`: `pyomo.Objective(sense=minimize,
expr=sum(produced_volume[o.name] * o.cost for o in options))`. -/
def add_objective (data : Data) : Sense × LinExpr :=
  (Sense.minimize, data.options.map fun o => (o.name, o.cost))

/-- `add_correct_volume_constraint`: `desired_product.volume ==
sum(produced_volume[o.name] for o in options)`. -/
def add_correct_volume_constraint (data : Data) : LinConstraint :=
  { terms := data.options.map fun o => (o.name, (1 : ℚ))
    rel := Rel.eq
    rhs := data.desired_product.volume }

/-- `add_correct_abv_constraint`: `0 == sum(produced_volume[o.name] *
(o.abv - desired_product.abv) for o in options)`. -/
def add_correct_abv_constraint (data : Data) : LinConstraint :=
  { terms := data.options.map fun o => (o.name, o.abv - data.desired_product.abv)
    rel := Rel.eq
    rhs := 0 }

/-- `create_instance`: assemble the model from the four builders. -/
def create_instance (data : Data) : LPModel :=
  { varKeys := add_produced_volume_variable data
    objSense := (add_objective data).1
    objTerms := (add_objective data).2
    volCon := add_correct_volume_constraint data
    abvCon := add_correct_abv_constraint data }

/-- `opt.TerminationCondition` (members used by the code plus
representative others). -/
inductive TerminationCondition where
  | optimal
  | feasible
  | infeasible
  | unbounded
  | maxTimeLimit
  | error
  | unknown
  deriving Repr, DecidableEq

/-- `opt.SolverStatus`. -/
inductive SolverStatus where
  | ok
  | warning
  | error
  | aborted
  | unknown
  deriving Repr, DecidableEq

/-- What `solver.solve(instance)` delivers on success: the reported
termination condition and status, and the variable values it loads back
into the instance. -/
structure SolverResult where
  termination_condition : TerminationCondition
  status : SolverStatus
  assignment : String → ℚ

/-- A failure of the solver invocation itself (missing binary, crash,
timeout): in Python, an exception raised by `solver.solve`. -/
inductive SolverError where
  | applicationError (msg : String)
  deriving Repr, DecidableEq

/-- `class SolverOutput(BaseModel)`; the optional dict is a key/value
list. -/
structure SolverOutput where
  termination_condition : TerminationCondition
  solver_status : SolverStatus
  optimal_cost : Option ℚ
  volumes_of_ingredients_to_produce : Option (List (String × ℚ))
  deriving Repr, DecidableEq

/-- Value of a linear expression under an assignment
(`pyomo.value` of the expression). -/
def evalTerms (ts : LinExpr) (a : String → ℚ) : ℚ :=
  (ts.map fun t => a t.1 * t.2).sum

/-- `solve_func`: build the instance, invoke the solver, and map its
outcome.  An exception from the solver call is not caught and
propagates. -/
def solve_func (data : Data) (solver : LPModel → Except SolverError SolverResult) :
    Except SolverError SolverOutput :=
  match solver (create_instance data) with
  | Except.error e => Except.error e
  | Except.ok results =>
    if results.termination_condition = TerminationCondition.optimal ∨
        results.termination_condition = TerminationCondition.feasible then
      Except.ok
        { termination_condition := results.termination_condition
          solver_status := results.status
          optimal_cost := some (evalTerms (create_instance data).objTerms results.assignment)
          volumes_of_ingredients_to_produce :=
            some ((create_instance data).varKeys.map fun n => (n, results.assignment n)) }
    else
      Except.ok
        { termination_condition := results.termination_condition
          solver_status := results.status
          optimal_cost := none
          volumes_of_ingredients_to_produce := none }

/-- Coefficient attached to variable `n` in a linear expression: the sum
of the coefficients of all monomials over `n`. -/
def coeffOf (ts : LinExpr) (n : String) : ℚ :=
  ((ts.filter fun t => t.1 = n).map (·.2)).sum

/-- Cost of the ingredient named `n` in the input (names assumed
unique). -/
def costOf (data : Data) (n : String) : ℚ :=
  ((data.options.find? fun o => o.name = n).map (·.cost)).getD 0

/-- Whether an assignment of values to the variables satisfies a linear
constraint. -/
def satisfies (a : String → ℚ) (c : LinConstraint) : Prop :=
  match c.rel with
  | Rel.eq => evalTerms c.terms a = c.rhs
  | Rel.le => evalTerms c.terms a ≤ c.rhs
  | Rel.ge => c.rhs ≤ evalTerms c.terms a

/-- Example input (spec Scenario A): water and spirit, target 10 volume
at 0.1 abv. -/
def scenarioA : Data :=
  { desired_product := { volume := 10, abv := 1/10 }
    options :=
      [ { name := "water", abv := 0, cost := 0 }
      , { name := "spirit", abv := 2/5, cost := 10 } ] }

/-- Scenario A with the ingredient list in the opposite order. -/
def scenarioA' : Data :=
  { desired_product := { volume := 10, abv := 1/10 }
    options :=
      [ { name := "spirit", abv := 2/5, cost := 10 }
      , { name := "water", abv := 0, cost := 0 } ] }

/-- An otherwise valid input whose two ingredients share the name "a". -/
def dupData : Data :=
  { desired_product := { volume := 10, abv := 1/10 }
    options :=
      [ { name := "a", abv := 0, cost := 1 }
      , { name := "a", abv := 1/2, cost := 2 } ] }

/-- A stub assignment for Scenario A's variables. -/
def aA : String → ℚ :=
  fun n => if n = "water" then 8 else if n = "spirit" then 2 else 0

/-- A stub external solver that reports infeasibility. -/
def infeasibleSolver : LPModel → Except SolverError SolverResult :=
  fun _ =>
    Except.ok
      { termination_condition := TerminationCondition.infeasible
        status := SolverStatus.ok
        assignment := fun _ => 0 }

/-- A stub external solver that reports an optimal solution with the
assignment `aA`. -/
def optimalSolver : LPModel → Except SolverError SolverResult :=
  fun _ =>
    Except.ok
      { termination_condition := TerminationCondition.optimal
        status := SolverStatus.ok
        assignment := aA }

/-- A stub external solver whose invocation fails (e.g. missing
binary). -/
def crashingSolver : LPModel → Except SolverError SolverResult :=
  fun _ => Except.error (SolverError.applicationError "No executable found for solver glpk")

theorem validIngredient_iff (i : Ingredient) :
    validIngredient i = true ↔ 0 ≤ i.abv ∧ i.abv ≤ 1 ∧ 0 ≤ i.cost := by
  simp [validIngredient, and_assoc]

theorem validDesiredProduct_iff (d : DesiredProduct) :
    validDesiredProduct d = true ↔ 0 < d.volume ∧ 0 ≤ d.abv ∧ d.abv ≤ 1 := by
  simp [validDesiredProduct, and_assoc]

theorem scenarioA_valid : validData scenarioA = true := by
  norm_num [validData, validDesiredProduct, validIngredient, scenarioA]

theorem scenarioA'_valid : validData scenarioA' = true := by
  norm_num [validData, validDesiredProduct, validIngredient, scenarioA']

theorem dupData_valid : validData dupData = true := by
  norm_num [validData, validDesiredProduct, validIngredient, dupData]

/- ### Helper lemmas -/

theorem mem_firstDedup (n : String) (l : List String) :
    n ∈ firstDedup l ↔ n ∈ l := by
  induction l with
  | nil => simp [firstDedup]
  | cons a as ih =>
    by_cases h : n = a
    · subst h; simp [firstDedup]
    · simp [firstDedup, List.mem_filter, ih, h]

theorem firstDedup_of_nodup (l : List String) (h : l.Nodup) :
    firstDedup l = l := by
  induction l with
  | nil => rfl
  | cons a as ih =>
    rcases List.nodup_cons.mp h with ⟨ha, has⟩
    rw [firstDedup, ih has, List.filter_eq_self.mpr]
    intro b hb
    simp only [ne_eq, decide_eq_true_eq]
    intro hba
    exact ha (hba ▸ hb)

theorem evalTerms_map_pairs (f : Ingredient → String) (g : Ingredient → ℚ)
    (l : List Ingredient) (a : String → ℚ) :
    evalTerms (l.map fun o => (f o, g o)) a = (l.map fun o => a (f o) * g o).sum := by
  unfold evalTerms
  rw [List.map_map]
  rfl

theorem coeffOf_perm (ts₁ ts₂ : LinExpr) (n : String) (h : ts₁.Perm ts₂) :
    coeffOf ts₁ n = coeffOf ts₂ n :=
  List.Perm.sum_eq (List.Perm.map _ (List.Perm.filter _ h))

theorem find?_eq_of_nodup_names (l : List Ingredient) (o : Ingredient)
    (hnd : (l.map (·.name)).Nodup) (ho : o ∈ l) :
    l.find? (fun x => x.name = o.name) = some o := by
  induction l with
  | nil => cases ho
  | cons a as ih =>
    rcases List.nodup_cons.mp hnd with ⟨ha, has⟩
    rcases List.mem_cons.mp ho with h | h
    · subst h
      simp [List.find?]
    · have hne : a.name ≠ o.name := by
        intro he
        have hmem : o.name ∈ as.map (·.name) := List.mem_map_of_mem (·.name) h
        refine ha ?_
        show a.name ∈ as.map (·.name)
        rw [he]
        exact hmem
      simp [List.find?, hne, ih has h]

/- ### Claims -/

/-- C1: for every validated input the objective of the model built by
`create_instance` is the minimization of the sum over all ingredients of
the ingredient's cost times its volume variable, and the sense is always
minimization (there is no other objective mode). -/
theorem objective_is_min_total_cost (data : Data) (a : String → ℚ)
    (hv : validData data = true) :
    (create_instance data).objSense = Sense.minimize ∧
    (create_instance data).objTerms = (data.options.map fun o => (o.name, o.cost)) ∧
    evalTerms (create_instance data).objTerms a
      = (data.options.map fun o => o.cost * a o.name).sum := by
  refine ⟨rfl, rfl, ?_⟩
  show evalTerms (data.options.map fun o => (o.name, o.cost)) a = _
  rw [evalTerms_map_pairs (·.name) (·.cost) data.options a]
  simp [mul_comm]

/-- Witness for C1 at Scenario A with the all-ones assignment. -/
theorem objective_is_min_total_cost_witness :
    (create_instance scenarioA).objSense = Sense.minimize ∧
    (create_instance scenarioA).objTerms
      = (scenarioA.options.map fun o => (o.name, o.cost)) ∧
    evalTerms (create_instance scenarioA).objTerms (fun _ => 1)
      = (scenarioA.options.map fun o => o.cost * (fun _ => (1 : ℚ)) o.name).sum :=
  objective_is_min_total_cost scenarioA (fun _ => 1) scenarioA_valid

/-- C2: for every validated input the model's volume constraint is an
exact equality stating that the sum of the ingredient volume variables
equals `desired_product.volume`. -/
theorem volume_constraint_is_exact_equality (data : Data) (a : String → ℚ)
    (hv : validData data = true) :
    (create_instance data).volCon.rel = Rel.eq ∧
    (create_instance data).volCon.rhs = data.desired_product.volume ∧
    (satisfies a (create_instance data).volCon ↔
      (data.options.map fun o => a o.name).sum = data.desired_product.volume) := by
  refine ⟨rfl, rfl, ?_⟩
  show evalTerms (data.options.map fun o => (o.name, (1 : ℚ))) a
      = data.desired_product.volume ↔ _
  rw [evalTerms_map_pairs (·.name) (fun _ => (1 : ℚ)) data.options a]
  simp [mul_one]

/-- Witness for C2 at Scenario A with the all-ones assignment. -/
theorem volume_constraint_is_exact_equality_witness :
    (create_instance scenarioA).volCon.rel = Rel.eq ∧
    (create_instance scenarioA).volCon.rhs = scenarioA.desired_product.volume ∧
    (satisfies (fun _ => 1) (create_instance scenarioA).volCon ↔
      (scenarioA.options.map fun o => (fun _ => (1 : ℚ)) o.name).sum
        = scenarioA.desired_product.volume) :=
  volume_constraint_is_exact_equality scenarioA (fun _ => 1) scenarioA_valid

/-- C3: for every validated input the model's ABV constraint is the
shifted linear equality `Σ volume_i * (abv_i - target_abv) = 0` (not the
unshifted weighted-average form): the monomial over each ingredient's
variable carries coefficient `abv_i - target_abv` and the right-hand
side is `0`. -/
theorem abv_constraint_is_shifted_form (data : Data) (a : String → ℚ)
    (hv : validData data = true) :
    (create_instance data).abvCon.rel = Rel.eq ∧
    (create_instance data).abvCon.rhs = 0 ∧
    (create_instance data).abvCon.terms
      = (data.options.map fun o => (o.name, o.abv - data.desired_product.abv)) ∧
    (satisfies a (create_instance data).abvCon ↔
      (data.options.map fun o =>
        a o.name * (o.abv - data.desired_product.abv)).sum = 0) := by
  refine ⟨rfl, rfl, rfl, ?_⟩
  show evalTerms
      (data.options.map fun o => (o.name, o.abv - data.desired_product.abv)) a = 0 ↔ _
  rw [evalTerms_map_pairs (·.name) (fun o => o.abv - data.desired_product.abv) data.options a]

/-- Witness for C3 at Scenario A with the all-ones assignment. -/
theorem abv_constraint_is_shifted_form_witness :
    (create_instance scenarioA).abvCon.rel = Rel.eq ∧
    (create_instance scenarioA).abvCon.rhs = 0 ∧
    (create_instance scenarioA).abvCon.terms
      = (scenarioA.options.map fun o => (o.name, o.abv - scenarioA.desired_product.abv)) ∧
    (satisfies (fun _ => 1) (create_instance scenarioA).abvCon ↔
      (scenarioA.options.map fun o =>
        (fun _ => (1 : ℚ)) o.name * (o.abv - scenarioA.desired_product.abv)).sum = 0) :=
  abv_constraint_is_shifted_form scenarioA (fun _ => 1) scenarioA_valid

/-- C7: an input passes pydantic validation iff every ingredient's abv
lies in [0,1] and its cost is non-negative, the target abv lies in
[0,1] and the target volume is strictly positive; the endpoint abv
values 0 and 1 are accepted. -/
theorem validation_characterization :
    (∀ d : Data, validData d = true ↔
      ((∀ i ∈ d.options, 0 ≤ i.abv ∧ i.abv ≤ 1 ∧ 0 ≤ i.cost) ∧
        0 < d.desired_product.volume ∧
        0 ≤ d.desired_product.abv ∧ d.desired_product.abv ≤ 1)) ∧
    validData { desired_product := { volume := 5, abv := 0 }
                options := [{ name := "water", abv := 0, cost := 1 }] } = true ∧
    validData { desired_product := { volume := 5, abv := 1 }
                options := [{ name := "pure", abv := 1, cost := 1 }] } = true := by
  refine ⟨?_, by norm_num [validData, validDesiredProduct, validIngredient],
    by norm_num [validData, validDesiredProduct, validIngredient]⟩
  intro d
  simp only [validData, Bool.and_eq_true, List.all_eq_true,
    validIngredient_iff, validDesiredProduct_iff]
  tauto

/-- C6 evidence: the duplicate-name input `dupData` passes pydantic
validation (no ValidationError), and `create_instance` then builds a
model whose single variable "a" carries the two ingredients' summed
objective coefficient. -/
theorem duplicate_names_accepted_and_merged :
    validData dupData = true ∧
    (create_instance dupData).varKeys = ["a"] ∧
    coeffOf (create_instance dupData).objTerms "a" = 3 := by
  refine ⟨dupData_valid, ?_, ?_⟩
  · show firstDedup ["a", "a"] = ["a"]
    rfl
  · show coeffOf [("a", (1 : ℚ)), ("a", 2)] "a" = 3
    norm_num [coeffOf]

/-- C4: whenever the solver result's termination condition is neither
optimal nor feasible, the `SolverOutput` returned by `solve_func` has
`optimal_cost = none` and `volumes_of_ingredients_to_produce = none`. -/
theorem absent_results_when_not_usable (data : Data)
    (solver : LPModel → Except SolverError SolverResult) (out : SolverOutput)
    (hok : solve_func data solver = Except.ok out)
    (hopt : out.termination_condition ≠ TerminationCondition.optimal)
    (hfeas : out.termination_condition ≠ TerminationCondition.feasible) :
    out.optimal_cost = none ∧ out.volumes_of_ingredients_to_produce = none := by
  cases hsr : solver (create_instance data) with
  | error e =>
    simp only [solve_func, hsr] at hok
    cases hok
  | ok results =>
    simp only [solve_func, hsr] at hok
    by_cases hcond : results.termination_condition = TerminationCondition.optimal ∨
        results.termination_condition = TerminationCondition.feasible
    · rw [if_pos hcond] at hok
      cases hok
      rcases hcond with h | h
      · exact absurd h hopt
      · exact absurd h hfeas
    · rw [if_neg hcond] at hok
      cases hok
      exact ⟨rfl, rfl⟩

/-- Witness for C4: a solver reporting infeasible yields an output with
absent cost and volumes. -/
theorem absent_results_when_not_usable_witness :
    (SolverOutput.mk TerminationCondition.infeasible SolverStatus.ok
      none none).optimal_cost = none ∧
    (SolverOutput.mk TerminationCondition.infeasible SolverStatus.ok
      none none).volumes_of_ingredients_to_produce = none :=
  absent_results_when_not_usable scenarioA infeasibleSolver _ rfl
    (by decide) (by decide)

/-- C5: whenever the solver result's termination condition is optimal or
feasible, the returned `SolverOutput` has a present objective value and
a present volume mapping whose key set covers every ingredient of the
original input. -/
theorem complete_results_when_usable (data : Data)
    (solver : LPModel → Except SolverError SolverResult) (out : SolverOutput)
    (hok : solve_func data solver = Except.ok out)
    (ht : out.termination_condition = TerminationCondition.optimal ∨
        out.termination_condition = TerminationCondition.feasible) :
    out.optimal_cost.isSome = true ∧
    out.volumes_of_ingredients_to_produce.isSome = true ∧
    ∀ o ∈ data.options,
      o.name ∈ (out.volumes_of_ingredients_to_produce.getD []).map Prod.fst := by
  cases hsr : solver (create_instance data) with
  | error e =>
    simp only [solve_func, hsr] at hok
    cases hok
  | ok results =>
    simp only [solve_func, hsr] at hok
    by_cases hcond : results.termination_condition = TerminationCondition.optimal ∨
        results.termination_condition = TerminationCondition.feasible
    · rw [if_pos hcond] at hok
      cases hok
      refine ⟨rfl, rfl, ?_⟩
      intro o ho
      have h1 : o.name ∈ data.options.map (·.name) := List.mem_map_of_mem (·.name) ho
      have h2 : o.name ∈ (create_instance data).varKeys := (mem_firstDedup _ _).mpr h1
      have h3 : (o.name, results.assignment o.name) ∈
          (create_instance data).varKeys.map fun n => (n, results.assignment n) :=
        List.mem_map_of_mem _ h2
      have h4 := List.mem_map_of_mem Prod.fst h3
      simpa using h4
    · rw [if_neg hcond] at hok
      cases hok
      exact absurd ht hcond

/-- Witness for C5: a solver reporting optimal on Scenario A yields
present cost and volumes covering the ingredient "water". -/
theorem complete_results_when_usable_witness :
    (some (evalTerms (create_instance scenarioA).objTerms aA)).isSome = true ∧
    (some ((create_instance scenarioA).varKeys.map fun n => (n, aA n))).isSome = true ∧
    "water" ∈ ((some ((create_instance scenarioA).varKeys.map fun n => (n, aA n)) :
      Option (List (String × ℚ))).getD []).map Prod.fst := by
  have h := complete_results_when_usable scenarioA optimalSolver
    (SolverOutput.mk TerminationCondition.optimal SolverStatus.ok
      (some (evalTerms (create_instance scenarioA).objTerms aA))
      (some ((create_instance scenarioA).varKeys.map fun n => (n, aA n))))
    rfl (Or.inl rfl)
  exact ⟨h.1, h.2.1, h.2.2 { name := "water", abv := 0, cost := 0 }
    (List.mem_cons_self _ _)⟩

/-- C8: when the external solver invocation itself fails, `solve_func`
propagates the error unchanged; in particular it never returns a normal
outcome (with termination condition infeasible or otherwise). -/
theorem solver_failure_propagates (data : Data)
    (solver : LPModel → Except SolverError SolverResult) (e : SolverError)
    (herr : solver (create_instance data) = Except.error e) :
    solve_func data solver = Except.error e ∧
    ∀ out : SolverOutput, solve_func data solver ≠ Except.ok out := by
  have h : solve_func data solver = Except.error e := by
    simp only [solve_func, herr]
  exact ⟨h, fun out hout => by rw [h] at hout; cases hout⟩

/-- Witness for C8: a crashing solver's error surfaces from
`solve_func`, which in particular is not an infeasible outcome. -/
theorem solver_failure_propagates_witness :
    solve_func scenarioA crashingSolver
      = Except.error (SolverError.applicationError
          "No executable found for solver glpk") ∧
    solve_func scenarioA crashingSolver
      ≠ Except.ok (SolverOutput.mk TerminationCondition.infeasible
          SolverStatus.ok none none) :=
  ⟨(solver_failure_propagates scenarioA crashingSolver _ rfl).1,
    (solver_failure_propagates scenarioA crashingSolver _ rfl).2 _⟩

/-- C9: model building is deterministic (equal inputs give equal
models), and for inputs with the same desired product whose ingredient
lists are permutations of each other, the coefficient attached to any
variable in the objective and in both constraints, the constraint
right-hand sides, the objective sense and the variable-key set all
agree. -/
theorem create_instance_deterministic_and_order_invariant
    (d₁ d₂ : Data) (n : String)
    (hdp : d₁.desired_product = d₂.desired_product)
    (hperm : d₁.options.Perm d₂.options) :
    (∀ d : Data, d = d₁ → create_instance d = create_instance d₁) ∧
    (create_instance d₁).objSense = (create_instance d₂).objSense ∧
    coeffOf (create_instance d₁).objTerms n = coeffOf (create_instance d₂).objTerms n ∧
    coeffOf (create_instance d₁).volCon.terms n
      = coeffOf (create_instance d₂).volCon.terms n ∧
    coeffOf (create_instance d₁).abvCon.terms n
      = coeffOf (create_instance d₂).abvCon.terms n ∧
    (create_instance d₁).volCon.rhs = (create_instance d₂).volCon.rhs ∧
    (create_instance d₁).abvCon.rhs = (create_instance d₂).abvCon.rhs ∧
    (n ∈ (create_instance d₁).varKeys ↔ n ∈ (create_instance d₂).varKeys) := by
  refine ⟨fun d hd => by rw [hd], rfl, ?_, ?_, ?_, ?_, rfl, ?_⟩
  · show coeffOf (d₁.options.map fun o => (o.name, o.cost)) n
      = coeffOf (d₂.options.map fun o => (o.name, o.cost)) n
    exact coeffOf_perm _ _ n (hperm.map fun o => (o.name, o.cost))
  · show coeffOf (d₁.options.map fun o => (o.name, (1 : ℚ))) n
      = coeffOf (d₂.options.map fun o => (o.name, (1 : ℚ))) n
    exact coeffOf_perm _ _ n (hperm.map fun o => (o.name, (1 : ℚ)))
  · show coeffOf (d₁.options.map fun o => (o.name, o.abv - d₁.desired_product.abv)) n
      = coeffOf (d₂.options.map fun o => (o.name, o.abv - d₂.desired_product.abv)) n
    rw [hdp]
    exact coeffOf_perm _ _ n (hperm.map fun o => (o.name, o.abv - d₂.desired_product.abv))
  · show d₁.desired_product.volume = d₂.desired_product.volume
    rw [hdp]
  · show n ∈ firstDedup (d₁.options.map (·.name)) ↔
      n ∈ firstDedup (d₂.options.map (·.name))
    rw [mem_firstDedup, mem_firstDedup]
    exact (hperm.map (·.name)).mem_iff

/-- Witness for C9 at Scenario A and its reversed ingredient order,
variable "water". -/
theorem create_instance_order_invariant_witness :
    create_instance scenarioA = create_instance scenarioA ∧
    (create_instance scenarioA).objSense = (create_instance scenarioA').objSense ∧
    coeffOf (create_instance scenarioA).objTerms "water"
      = coeffOf (create_instance scenarioA').objTerms "water" ∧
    (create_instance scenarioA).volCon.rhs = (create_instance scenarioA').volCon.rhs ∧
    ("water" ∈ (create_instance scenarioA).varKeys ↔
      "water" ∈ (create_instance scenarioA').varKeys) := by
  have h := create_instance_deterministic_and_order_invariant scenarioA scenarioA'
    "water" rfl (List.Perm.swap _ _ _)
  exact ⟨h.1 scenarioA rfl, h.2.1, h.2.2.1, h.2.2.2.2.2.1, h.2.2.2.2.2.2.2⟩

/-- C10: whenever `solve_func` returns an output with present cost and
volumes and the input's ingredient names are unique, the reported cost
equals the sum over the returned mapping of each ingredient's cost
times its returned volume (exactly, with no rounding). -/
theorem reported_cost_is_objective_on_reported_volumes
    (data : Data) (solver : LPModel → Except SolverError SolverResult)
    (out : SolverOutput) (c : ℚ) (m : List (String × ℚ))
    (hnd : (data.options.map (·.name)).Nodup)
    (hok : solve_func data solver = Except.ok out)
    (hc : out.optimal_cost = some c)
    (hm : out.volumes_of_ingredients_to_produce = some m) :
    c = (m.map fun kv => costOf data kv.1 * kv.2).sum := by
  cases hsr : solver (create_instance data) with
  | error e =>
    simp only [solve_func, hsr] at hok
    cases hok
  | ok results =>
    simp only [solve_func, hsr] at hok
    by_cases hcond : results.termination_condition = TerminationCondition.optimal ∨
        results.termination_condition = TerminationCondition.feasible
    · rw [if_pos hcond] at hok
      cases hok
      have hc' : c = evalTerms (create_instance data).objTerms results.assignment :=
        (Option.some.inj hc).symm
      have hm' : m = (create_instance data).varKeys.map
          fun n => (n, results.assignment n) :=
        (Option.some.inj hm).symm
      subst hc'
      subst hm'
      show evalTerms (data.options.map fun o => (o.name, o.cost)) results.assignment = _
      rw [evalTerms_map_pairs (·.name) (·.cost) data.options results.assignment]
      have hkeys : (create_instance data).varKeys = data.options.map (·.name) :=
        firstDedup_of_nodup _ hnd
      rw [hkeys, List.map_map, List.map_map]
      refine congrArg List.sum (List.map_congr_left ?_)
      intro o ho
      show results.assignment o.name * o.cost
        = costOf data o.name * results.assignment o.name
      have hfind : data.options.find? (fun x => x.name = o.name) = some o :=
        find?_eq_of_nodup_names data.options o hnd ho
      rw [costOf, hfind]
      simp [mul_comm]
    · rw [if_neg hcond] at hok
      cases hok
      cases hc

/-- Witness for C10 at Scenario A with a stub optimal solver: the
reported cost equals the objective evaluated on the reported volumes. -/
theorem reported_cost_is_objective_on_reported_volumes_witness :
    evalTerms (create_instance scenarioA).objTerms aA
      = (((create_instance scenarioA).varKeys.map fun n => (n, aA n)).map
          fun kv => costOf scenarioA kv.1 * kv.2).sum :=
  reported_cost_is_objective_on_reported_volumes scenarioA optimalSolver
    (SolverOutput.mk TerminationCondition.optimal SolverStatus.ok
      (some (evalTerms (create_instance scenarioA).objTerms aA))
      (some ((create_instance scenarioA).varKeys.map fun n => (n, aA n))))
    (evalTerms (create_instance scenarioA).objTerms aA)
    ((create_instance scenarioA).varKeys.map fun n => (n, aA n))
    (by decide) rfl rfl rfl

end BeerBlending
